import Mathlib

set_option maxRecDepth 8000

/-
Shallow embedding of src/corelib/io/qnoncontiguousbytedevice.cpp.

Bytes are modelled as Char, byte buffers as List Char, qint64 as Int.
A borrowed read pointer is modelled as the byte suffix it points into
(an Option, none for nullptr); readProgress emissions are collected as
explicit (current, total) lists in the order they are emitted.
-/

/-- Model of the QIODevice backing a QNonContiguousByteDeviceIoDeviceImpl:
a byte stream with a current position, a sequential flag, and an error flag
under which reads fail with -1. -/
structure QIODevice where
  content : List Char
  pos : Nat
  sequential : Bool
  readError : Bool
deriving DecidableEq

namespace QIODevice

/-- QIODevice::atEnd. -/
def atEnd (d : QIODevice) : Bool := d.content.length ≤ d.pos

/-- QIODevice::isSequential. -/
def isSequential (d : QIODevice) : Bool := d.sequential

/-- QIODevice::size (consulted only on non-sequential devices). -/
def size (d : QIODevice) : Int := d.content.length

/-- QIODevice::pos. -/
def devicePos (d : QIODevice) : Int := d.pos

/-- QIODevice::read(char *data, qint64 maxSize): number of bytes read
(-1 on error or negative maxSize), the bytes themselves, and the device
after the read. -/
def read (d : QIODevice) (maxSize : Int) : Int × List Char × QIODevice :=
  if maxSize < 0 ∨ d.readError then (-1, [], d)
  else
    let n := min maxSize.toNat (d.content.length - d.pos)
    ((n : Int), (d.content.drop d.pos).take n, { d with pos := d.pos + n })

/-- QIODevice::getChar(nullptr): read and discard one byte, true on success. -/
def getChar (d : QIODevice) : Bool × QIODevice :=
  if d.readError ∨ d.content.length ≤ d.pos then (false, d)
  else (true, { d with pos := d.pos + 1 })

/-- QIODevice::seek(p), also covering QIODevice::reset() as seek 0: fails on
a sequential device or an out-of-range target, otherwise moves pos. -/
def seek (d : QIODevice) (p : Int) : Bool × QIODevice :=
  if d.sequential ∨ p < 0 ∨ (d.content.length : Int) < p then (false, d)
  else (true, { d with pos := p.toNat })

end QIODevice

/-- Result of a readPointer call: the borrowed pointer (the byte suffix it
points into, none for nullptr), the reported len, the successor state, and
the readProgress emissions (current, total) in emission order. -/
structure RPOut (σ : Type) where
  ptr : Option (List Char)
  len : Int
  st : σ
  ems : List (Int × Int)
deriving DecidableEq

/-- Result of an advanceReadPointer call: the returned Bool, the successor
state, and the readProgress emissions in emission order. -/
structure AdvOut (σ : Type) where
  ok : Bool
  st : σ
  ems : List (Int × Int)
deriving DecidableEq

/-- The bytes a readPointer result makes valid: the first len bytes behind
the returned pointer. -/
def viewOf {σ : Type} (r : RPOut σ) : List Char :=
  (r.ptr.getD []).take r.len.toNat

/-- State of QNonContiguousByteDeviceIoDeviceImpl (the StreamingCursor),
lines 250-378 of qnoncontiguousbytedevice.cpp. -/
structure QNonContiguousByteDeviceIoDeviceImpl where
  device : QIODevice
  currentReadBuffer : Option (List Char)
  currentReadBufferSize : Int
  currentReadBufferAmount : Int
  currentReadBufferPosition : Int
  totalAdvancements : Int
  eof : Bool
  initialPosition : Int
deriving DecidableEq

namespace QNonContiguousByteDeviceIoDeviceImpl

/-- The constructor (lines 250-265): empty chunk, 16 KiB capacity, initial
position remembered from the device. -/
def make (d : QIODevice) : QNonContiguousByteDeviceIoDeviceImpl :=
  { device := d
    currentReadBuffer := none
    currentReadBufferSize := 16 * 1024
    currentReadBufferAmount := 0
    currentReadBufferPosition := 0
    totalAdvancements := 0
    eof := false
    initialPosition := (d.pos : Int) }

/-- size() (lines 362-370): -1 for sequential devices, else the device size
relative to the recorded initial position. -/
def size (s : QNonContiguousByteDeviceIoDeviceImpl) : Int :=
  if s.device.isSequential then -1 else s.device.size - s.initialPosition

/-- pos() (lines 372-378). -/
def posOf (s : QNonContiguousByteDeviceIoDeviceImpl) : Int :=
  if s.device.isSequential then -1 else s.device.devicePos

/-- atEnd() (lines 339-342). -/
def atEnd (s : QNonContiguousByteDeviceIoDeviceImpl) : Bool := s.eof

/-- readPointer (lines 272-307). -/
def readPointer (s : QNonContiguousByteDeviceIoDeviceImpl) (maximumLength : Int) :
    RPOut QNonContiguousByteDeviceIoDeviceImpl :=
  if s.eof then ⟨none, -1, s, []⟩
  else
    -- lazy allocation of the chunk (line 279-280)
    let buf := match s.currentReadBuffer with
      | some b => b
      | none => List.replicate s.currentReadBufferSize.toNat '\x00'
    let s0 := { s with currentReadBuffer := some buf }
    let maxLen := if maximumLength = -1 then s0.currentReadBufferSize else maximumLength
    if 0 < s0.currentReadBufferAmount - s0.currentReadBufferPosition then
      -- serve the unconsumed part of the chunk (lines 285-288)
      ⟨some (buf.drop s0.currentReadBufferPosition.toNat),
        s0.currentReadBufferAmount - s0.currentReadBufferPosition, s0, []⟩
    else
      -- fresh pull from the device (lines 290-306)
      let out := s0.device.read (min maxLen s0.currentReadBufferSize)
      let haveRead := out.1
      let bytes := out.2.1
      let d := out.2.2
      if haveRead = -1 ∨ (haveRead = 0 ∧ d.atEnd ∧ ¬ d.isSequential) then
        let s1 := { s0 with device := d, eof := true }
        ⟨none, -1, s1,
          if size s1 = -1 then [(s1.totalAdvancements, s1.totalAdvancements)] else []⟩
      else
        let newBuf := bytes ++ buf.drop bytes.length
        let s1 := { s0 with
                    device := d
                    currentReadBuffer := some newBuf
                    currentReadBufferAmount := haveRead
                    currentReadBufferPosition := 0 }
        ⟨some newBuf, haveRead, s1, []⟩

/-- The discard loop of advanceReadPointer (lines 323-330): read-and-discard
i bytes one at a time via getChar; returns success, the device afterwards,
and the loop counter at the failing getChar (0 on success). -/
def discardLoop : QIODevice → Nat → Bool × QIODevice × Nat
  | d, 0 => (true, d, 0)
  | d, n + 1 =>
    match d.getChar with
    | (true, d1) => discardLoop d1 n
    | (false, d1) => (false, d1, n + 1)

/-- advanceReadPointer (lines 309-337). -/
def advanceReadPointer (s : QNonContiguousByteDeviceIoDeviceImpl) (amount : Int) :
    AdvOut QNonContiguousByteDeviceIoDeviceImpl :=
  let s1 := { s with
              totalAdvancements := s.totalAdvancements + amount
              currentReadBufferPosition := s.currentReadBufferPosition + amount }
  let e1 : Int × Int :=
    if size s1 = -1 then (s1.totalAdvancements, s1.totalAdvancements)
    else (s1.totalAdvancements, size s1)
  if s1.currentReadBufferAmount < s1.currentReadBufferPosition then
    let i := s1.currentReadBufferPosition - s1.currentReadBufferAmount
    match discardLoop s1.device i.toNat with
    | (true, d, _) =>
      ⟨true, { s1 with
               device := d
               currentReadBufferPosition := 0
               currentReadBufferAmount := 0 }, [e1]⟩
    | (false, d, rem) =>
      let s2 := { s1 with device := d }
      ⟨false, s2, [e1, (s1.totalAdvancements - (rem : Int), size s2)]⟩
  else
    ⟨true, s1, [e1]⟩

/-- reset (lines 344-360). -/
def reset (s : QNonContiguousByteDeviceIoDeviceImpl) :
    Bool × QNonContiguousByteDeviceIoDeviceImpl :=
  let out := if s.initialPosition = 0 then s.device.seek 0 else s.device.seek s.initialPosition
  if out.1 then
    (true, { s with
             device := out.2
             eof := false
             totalAdvancements := 0
             currentReadBuffer := none
             currentReadBufferAmount := 0
             currentReadBufferPosition := 0 })
  else (false, { s with device := out.2 })

end QNonContiguousByteDeviceIoDeviceImpl

/-- State of QNonContiguousByteDeviceByteArrayImpl: a borrowed byte array
and the current position (lines 146-196). -/
structure QNonContiguousByteDeviceByteArrayImpl where
  byteArray : List Char
  currentPosition : Int
deriving DecidableEq

namespace QNonContiguousByteDeviceByteArrayImpl

/-- The constructor (lines 146-149). -/
def make (ba : List Char) : QNonContiguousByteDeviceByteArrayImpl := ⟨ba, 0⟩

/-- size() (lines 188-191). -/
def size (s : QNonContiguousByteDeviceByteArrayImpl) : Int := s.byteArray.length

/-- atEnd() (lines 177-180). -/
def atEnd (s : QNonContiguousByteDeviceByteArrayImpl) : Bool :=
  size s ≤ s.currentPosition

/-- readPointer (lines 155-168). -/
def readPointer (s : QNonContiguousByteDeviceByteArrayImpl) (maximumLength : Int) :
    RPOut QNonContiguousByteDeviceByteArrayImpl :=
  if s.atEnd then ⟨none, -1, s, []⟩
  else
    let len := if maximumLength ≠ -1 then min maximumLength (size s - s.currentPosition)
               else size s - s.currentPosition
    ⟨some (s.byteArray.drop s.currentPosition.toNat), len, s, []⟩

/-- advanceReadPointer (lines 170-175). -/
def advanceReadPointer (s : QNonContiguousByteDeviceByteArrayImpl) (amount : Int) :
    AdvOut QNonContiguousByteDeviceByteArrayImpl :=
  let s1 := { s with currentPosition := s.currentPosition + amount }
  ⟨true, s1, [(s1.currentPosition, size s1)]⟩

/-- reset (lines 182-186). -/
def reset (s : QNonContiguousByteDeviceByteArrayImpl) :
    Bool × QNonContiguousByteDeviceByteArrayImpl :=
  (true, { s with currentPosition := 0 })

/-- pos() (lines 193-196). -/
def posOf (s : QNonContiguousByteDeviceByteArrayImpl) : Int := s.currentPosition

end QNonContiguousByteDeviceByteArrayImpl

/-- Model of the QRingBuffer backing a QNonContiguousByteDeviceRingBufferImpl;
its logically contiguous content is the byte list. -/
structure QRingBuffer where
  bytes : List Char
deriving DecidableEq

/-- QRingBuffer::readPointerAtPosition: a contiguous pointer at logical
position p together with the number of bytes valid there (nullptr and 0
when out of range); the ring wraparound is already resolved by the ring
buffer, so the model serves the content as one contiguous segment. -/
def QRingBuffer.readPointerAtPosition (rb : QRingBuffer) (p : Int) :
    Option (List Char) × Int :=
  if 0 ≤ p ∧ p < (rb.bytes.length : Int) then
    (some (rb.bytes.drop p.toNat), (rb.bytes.length : Int) - p)
  else (none, 0)

/-- State of QNonContiguousByteDeviceRingBufferImpl (lines 198-248). -/
structure QNonContiguousByteDeviceRingBufferImpl where
  ringBuffer : QRingBuffer
  currentPosition : Int
deriving DecidableEq

namespace QNonContiguousByteDeviceRingBufferImpl

/-- The constructor (lines 198-201). -/
def make (rb : QRingBuffer) : QNonContiguousByteDeviceRingBufferImpl := ⟨rb, 0⟩

/-- size() (lines 245-248): queried live from the ring buffer. -/
def size (s : QNonContiguousByteDeviceRingBufferImpl) : Int :=
  s.ringBuffer.bytes.length

/-- atEnd() (lines 229-232). -/
def atEnd (s : QNonContiguousByteDeviceRingBufferImpl) : Bool :=
  size s ≤ s.currentPosition

/-- readPointer (lines 207-220). -/
def readPointer (s : QNonContiguousByteDeviceRingBufferImpl) (maximumLength : Int) :
    RPOut QNonContiguousByteDeviceRingBufferImpl :=
  if s.atEnd then ⟨none, -1, s, []⟩
  else
    let out := s.ringBuffer.readPointerAtPosition s.currentPosition
    let len := if maximumLength ≠ -1 then min out.2 maximumLength else out.2
    ⟨out.1, len, s, []⟩

/-- advanceReadPointer (lines 222-227). -/
def advanceReadPointer (s : QNonContiguousByteDeviceRingBufferImpl) (amount : Int) :
    AdvOut QNonContiguousByteDeviceRingBufferImpl :=
  let s1 := { s with currentPosition := s.currentPosition + amount }
  ⟨true, s1, [(s1.currentPosition, size s1)]⟩

/-- reset (lines 239-243). -/
def reset (s : QNonContiguousByteDeviceRingBufferImpl) :
    Bool × QNonContiguousByteDeviceRingBufferImpl :=
  (true, { s with currentPosition := 0 })

/-- pos() (lines 234-237). -/
def posOf (s : QNonContiguousByteDeviceRingBufferImpl) : Int := s.currentPosition

end QNonContiguousByteDeviceRingBufferImpl

/-- Model of the QBuffer handed to QNonContiguousByteDeviceBufferImpl:
a growable in-memory buffer with a current position. -/
structure QBuffer where
  data : List Char
  bufPos : Nat
deriving DecidableEq

/-- QNonContiguousByteDeviceBufferImpl (lines 102-144): takes a frozen view
of the buffer from its position to its end and delegates every operation to
an internally constructed QNonContiguousByteDeviceByteArrayImpl over that
window, so its behaviour is exactly the byte-array cursor over the window. -/
def QNonContiguousByteDeviceBufferImpl.make (b : QBuffer) :
    QNonContiguousByteDeviceByteArrayImpl :=
  QNonContiguousByteDeviceByteArrayImpl.make (b.data.drop b.bufPos)

/-- The virtual interface of QNonContiguousByteDevice, used by the wrapping
QIODevice adapter, which is polymorphic over the wrapped cursor. -/
structure QNonContiguousByteDeviceOps (σ : Type) where
  readPointer : σ → Int → RPOut σ
  advanceReadPointer : σ → Int → AdvOut σ
  atEnd : σ → Bool
  reset : σ → Bool × σ
  size : σ → Int

/-- The byte-array cursor packaged behind the virtual interface. -/
def byteArrayOps : QNonContiguousByteDeviceOps QNonContiguousByteDeviceByteArrayImpl :=
  { readPointer := QNonContiguousByteDeviceByteArrayImpl.readPointer
    advanceReadPointer := QNonContiguousByteDeviceByteArrayImpl.advanceReadPointer
    atEnd := QNonContiguousByteDeviceByteArrayImpl.atEnd
    reset := QNonContiguousByteDeviceByteArrayImpl.reset
    size := QNonContiguousByteDeviceByteArrayImpl.size }

/-- The streaming cursor packaged behind the virtual interface. -/
def ioDeviceOps : QNonContiguousByteDeviceOps QNonContiguousByteDeviceIoDeviceImpl :=
  { readPointer := QNonContiguousByteDeviceIoDeviceImpl.readPointer
    advanceReadPointer := QNonContiguousByteDeviceIoDeviceImpl.advanceReadPointer
    atEnd := QNonContiguousByteDeviceIoDeviceImpl.atEnd
    reset := QNonContiguousByteDeviceIoDeviceImpl.reset
    size := QNonContiguousByteDeviceIoDeviceImpl.size }

namespace QByteDeviceWrappingIoDevice

/-- isSequential (lines 391-394). -/
def isSequential {σ : Type} (ops : QNonContiguousByteDeviceOps σ) (s : σ) : Bool :=
  ops.size s == -1

/-- atEnd (lines 396-399). -/
def wrapAtEnd {σ : Type} (ops : QNonContiguousByteDeviceOps σ) (s : σ) : Bool :=
  ops.atEnd s

/-- reset (lines 401-404). -/
def wrapReset {σ : Type} (ops : QNonContiguousByteDeviceOps σ) (s : σ) : Bool × σ :=
  ops.reset s

/-- size (lines 406-412). -/
def wrapSize {σ : Type} (ops : QNonContiguousByteDeviceOps σ) (s : σ) : Int :=
  if isSequential ops s then 0 else ops.size s

/-- readData (lines 414-424): borrow a pointer, copy len bytes into the
caller buffer, advance by len; -1 when the pointer signals len = -1.
Returns the return value, the copied bytes, and the successor state. -/
def readData {σ : Type} (ops : QNonContiguousByteDeviceOps σ) (s : σ) (maxSize : Int) :
    Int × List Char × σ :=
  let r := ops.readPointer s maxSize
  if r.len = -1 then (-1, [], r.st)
  else
    let copied := (r.ptr.getD []).take r.len.toNat
    let a := ops.advanceReadPointer r.st r.len
    (r.len, copied, a.st)

/-- writeData (lines 426-431): unsupported, always -1 regardless of the
wrapped cursor, the data or the requested size. -/
def writeData {σ : Type} (_ops : QNonContiguousByteDeviceOps σ) (_s : σ)
    (_data : List Char) (_maxSize : Int) : Int := -1

end QByteDeviceWrappingIoDevice

/-- One cursor operation in a readPointer/advance sequence between two
resets. -/
inductive CursorOp where
  | rp (maxLen : Int)
  | adv (amount : Int)
deriving DecidableEq

/-- An operation with a nonnegative advance amount. -/
def CursorOp.nonneg : CursorOp → Prop
  | .rp _ => True
  | .adv a => 0 ≤ a

instance : DecidablePred CursorOp.nonneg := by
  intro op
  cases op with
  | rp m => exact isTrue trivial
  | adv a => exact inferInstanceAs (Decidable (0 ≤ a))

/-- Generic runner over a cursor: a step yields the successor state, the
readProgress currents it emitted, and whether an advance in it returned
true; a run concatenates the emissions and conjoins the advance results. -/
def runOps {σ : Type} (step : σ → CursorOp → σ × List Int × Bool) :
    σ → List CursorOp → σ × List Int × Bool
  | s, [] => (s, [], true)
  | s, op :: rest =>
    let o1 := step s op
    let o2 := runOps step o1.1 rest
    (o2.1, o1.2.1 ++ o2.2.1, o1.2.2 && o2.2.2)

/-- One byte-array cursor step. -/
def byteArrayStep (s : QNonContiguousByteDeviceByteArrayImpl) :
    CursorOp → QNonContiguousByteDeviceByteArrayImpl × List Int × Bool
  | .rp m => ((s.readPointer m).st, (s.readPointer m).ems.map Prod.fst, true)
  | .adv a =>
    ((s.advanceReadPointer a).st, (s.advanceReadPointer a).ems.map Prod.fst,
      (s.advanceReadPointer a).ok)

/-- One ring-buffer cursor step. -/
def ringBufferStep (s : QNonContiguousByteDeviceRingBufferImpl) :
    CursorOp → QNonContiguousByteDeviceRingBufferImpl × List Int × Bool
  | .rp m => ((s.readPointer m).st, (s.readPointer m).ems.map Prod.fst, true)
  | .adv a =>
    ((s.advanceReadPointer a).st, (s.advanceReadPointer a).ems.map Prod.fst,
      (s.advanceReadPointer a).ok)

/-- One streaming cursor step. -/
def ioDeviceStep (s : QNonContiguousByteDeviceIoDeviceImpl) :
    CursorOp → QNonContiguousByteDeviceIoDeviceImpl × List Int × Bool
  | .rp m => ((s.readPointer m).st, (s.readPointer m).ems.map Prod.fst, true)
  | .adv a =>
    ((s.advanceReadPointer a).st, (s.advanceReadPointer a).ems.map Prod.fst,
      (s.advanceReadPointer a).ok)

/-- A list is nondecreasing starting no lower than a: used to chain the
progress currents across operations. -/
def NonDecFrom : Int → List Int → Prop
  | _, [] => True
  | a, x :: xs => a ≤ x ∧ NonDecFrom x xs

/-- The last element of a list, with a default for the empty list. -/
def lastD (a : Int) : List Int → Int
  | [] => a
  | x :: xs => lastD x xs

theorem lastD_append (a : Int) (l1 l2 : List Int) :
    lastD a (l1 ++ l2) = lastD (lastD a l1) l2 := by
  induction l1 generalizing a with
  | nil => rfl
  | cons x xs ih => simp [lastD, ih]

theorem lastD_mono_base {a b : Int} (h : a ≤ b) (l : List Int) :
    lastD a l ≤ lastD b l := by
  cases l with
  | nil => exact h
  | cons x xs => exact le_refl _

theorem NonDecFrom.mono {a b : Int} {l : List Int} (h : NonDecFrom a l) (hba : b ≤ a) :
    NonDecFrom b l := by
  cases l with
  | nil => trivial
  | cons x xs => exact ⟨le_trans hba h.1, h.2⟩

theorem NonDecFrom.le_lastD {a : Int} {l : List Int} (h : NonDecFrom a l) :
    a ≤ lastD a l := by
  induction l generalizing a with
  | nil => exact le_refl a
  | cons x xs ih => exact le_trans h.1 (ih h.2)

theorem NonDecFrom.append {a : Int} {l1 l2 : List Int}
    (h1 : NonDecFrom a l1) (h2 : NonDecFrom (lastD a l1) l2) :
    NonDecFrom a (l1 ++ l2) := by
  induction l1 generalizing a with
  | nil => exact h2.mono h1.le_lastD
  | cons x xs ih => exact ⟨h1.1, ih h1.2 h2⟩

theorem NonDecFrom.chain {a : Int} {l : List Int} (h : NonDecFrom a l) :
    List.Chain' (fun x y => x ≤ y) l := by
  induction l generalizing a with
  | nil => exact List.chain'_nil
  | cons x xs ih =>
    cases xs with
    | nil => simp
    | cons y ys =>
      exact List.Chain'.cons h.2.1 (ih h.2)

/-- Gluing lemma: if every step emits currents that are nondecreasing from
the measure of its start state and ends no higher than the measure of its
successor state, then a whole run does too. -/
theorem runOps_nonDecFrom {σ : Type} (step : σ → CursorOp → σ × List Int × Bool)
    (μ : σ → Int)
    (hstep : ∀ s op, CursorOp.nonneg op → (step s op).2.2 = true →
      NonDecFrom (μ s) (step s op).2.1 ∧
      lastD (μ s) (step s op).2.1 ≤ μ (step s op).1) :
    ∀ ops s, (∀ op ∈ ops, CursorOp.nonneg op) → (runOps step s ops).2.2 = true →
      NonDecFrom (μ s) (runOps step s ops).2.1 ∧
      lastD (μ s) (runOps step s ops).2.1 ≤ μ (runOps step s ops).1 := by
  intro ops
  induction ops with
  | nil => intro s _ _; exact ⟨trivial, le_refl _⟩
  | cons op rest ih =>
    intro s hops hok
    have hok1 : (step s op).2.2 = true := by
      have := hok
      simp only [runOps, Bool.and_eq_true] at this
      exact this.1
    have hok2 : (runOps step (step s op).1 rest).2.2 = true := by
      simp only [runOps, Bool.and_eq_true] at hok
      exact hok.2
    have h1 := hstep s op (hops op (List.mem_cons_self op rest)) hok1
    have h2 := ih (step s op).1 (fun o ho => hops o (List.mem_cons_of_mem op ho)) hok2
    constructor
    · exact h1.1.append (h2.1.mono h1.2)
    · show lastD (μ s) ((step s op).2.1 ++ (runOps step (step s op).1 rest).2.1) ≤ _
      rw [lastD_append]
      calc lastD (lastD (μ s) (step s op).2.1) (runOps step (step s op).1 rest).2.1
          ≤ lastD (μ (step s op).1) (runOps step (step s op).1 rest).2.1 := by
            exact lastD_mono_base h1.2 _
        _ ≤ μ (runOps step (step s op).1 rest).1 := h2.2

theorem byteArrayStep_nonDec (s : QNonContiguousByteDeviceByteArrayImpl)
    (op : CursorOp) (h : op.nonneg) (hok : (byteArrayStep s op).2.2 = true) :
    NonDecFrom s.currentPosition (byteArrayStep s op).2.1 ∧
    lastD s.currentPosition (byteArrayStep s op).2.1 ≤
      (byteArrayStep s op).1.currentPosition := by
  cases op with
  | rp m =>
    simp only [byteArrayStep, QNonContiguousByteDeviceByteArrayImpl.readPointer]
    split <;> simp [NonDecFrom, lastD]
  | adv a =>
    simp only [CursorOp.nonneg] at h
    simp only [byteArrayStep, QNonContiguousByteDeviceByteArrayImpl.advanceReadPointer]
    simp [NonDecFrom, lastD]
    linarith

theorem ringBufferStep_nonDec (s : QNonContiguousByteDeviceRingBufferImpl)
    (op : CursorOp) (h : op.nonneg) (hok : (ringBufferStep s op).2.2 = true) :
    NonDecFrom s.currentPosition (ringBufferStep s op).2.1 ∧
    lastD s.currentPosition (ringBufferStep s op).2.1 ≤
      (ringBufferStep s op).1.currentPosition := by
  cases op with
  | rp m =>
    simp only [ringBufferStep, QNonContiguousByteDeviceRingBufferImpl.readPointer]
    split <;> simp [NonDecFrom, lastD]
  | adv a =>
    simp only [CursorOp.nonneg] at h
    simp only [ringBufferStep, QNonContiguousByteDeviceRingBufferImpl.advanceReadPointer]
    simp [NonDecFrom, lastD]
    linarith

theorem ioDeviceStep_nonDec (s : QNonContiguousByteDeviceIoDeviceImpl)
    (op : CursorOp) (h : op.nonneg) (hok : (ioDeviceStep s op).2.2 = true) :
    NonDecFrom s.totalAdvancements (ioDeviceStep s op).2.1 ∧
    lastD s.totalAdvancements (ioDeviceStep s op).2.1 ≤
      (ioDeviceStep s op).1.totalAdvancements := by
  cases op with
  | rp m =>
    simp only [ioDeviceStep, QNonContiguousByteDeviceIoDeviceImpl.readPointer]
    repeat' split
    all_goals simp [NonDecFrom, lastD]
  | adv a =>
    simp only [CursorOp.nonneg] at h
    revert hok
    simp only [ioDeviceStep, QNonContiguousByteDeviceIoDeviceImpl.advanceReadPointer]
    repeat' split
    all_goals intro hok
    all_goals simp [NonDecFrom, lastD] at hok ⊢
    all_goals linarith

/-- Claim C8: for the byte-array cursor, when not at end, readPointer(maxLen)
returns the pointer base + position (the array suffix at the current
position) with len = min(maxLen, size - position), or size - position when
maxLen is -1; atEnd() returns position ≥ size; advanceReadPointer(amount)
adds amount to the position and returns true; reset() sets the position to
0 and returns true. -/
theorem claim_C8 (s : QNonContiguousByteDeviceByteArrayImpl) (maxLen amount : Int) :
    (s.atEnd = false →
      (s.readPointer maxLen).ptr = some (s.byteArray.drop s.currentPosition.toNat) ∧
      (s.readPointer maxLen).len =
        (if maxLen = -1 then s.size - s.currentPosition
         else min maxLen (s.size - s.currentPosition))) ∧
    (s.atEnd = true ↔ s.currentPosition ≥ s.size) ∧
    ((s.advanceReadPointer amount).st.currentPosition = s.currentPosition + amount ∧
      (s.advanceReadPointer amount).ok = true) ∧
    ((s.reset).2.currentPosition = 0 ∧ (s.reset).1 = true) := by
  refine ⟨?_, ?_, ⟨rfl, rfl⟩, rfl, rfl⟩
  · intro hne
    unfold QNonContiguousByteDeviceByteArrayImpl.readPointer
    rw [hne]
    by_cases hm : maxLen = -1 <;> simp [hm]
  · simp [QNonContiguousByteDeviceByteArrayImpl.atEnd, ge_iff_le, decide_eq_true_iff]

theorem claim_C8_witness :
    (QNonContiguousByteDeviceByteArrayImpl.make ("AB".toList)).atEnd = false ∧
    ((QNonContiguousByteDeviceByteArrayImpl.make ("AB".toList)).readPointer 1).len = 1 := by
  have h := claim_C8 (QNonContiguousByteDeviceByteArrayImpl.make ("AB".toList)) 1 2
  refine ⟨by decide, ?_⟩
  rw [(h.1 (by decide)).2]
  decide

/-- Claim C6: streaming-cursor reset succeeds exactly when the underlying
device seeks back to the recorded initial position; on success eof is
cleared, totalAdvancements is zeroed, the chunk buffer is freed (none,
reallocated lazily by the next readPointer) and both chunk counters are
zeroed; on failure the entire state is unchanged. -/
theorem claim_C6 (s : QNonContiguousByteDeviceIoDeviceImpl) :
    ((s.reset).1 = (s.device.seek s.initialPosition).1) ∧
    ((s.reset).1 = true →
      (s.reset).2.eof = false ∧
      (s.reset).2.totalAdvancements = 0 ∧
      (s.reset).2.currentReadBuffer = none ∧
      (s.reset).2.currentReadBufferAmount = 0 ∧
      (s.reset).2.currentReadBufferPosition = 0) ∧
    ((s.reset).1 = false → (s.reset).2 = s) := by
  have hsel : (if s.initialPosition = 0 then s.device.seek 0
      else s.device.seek s.initialPosition) = s.device.seek s.initialPosition := by
    by_cases h0 : s.initialPosition = 0 <;> simp [h0]
  unfold QNonContiguousByteDeviceIoDeviceImpl.reset
  rw [hsel]
  unfold QIODevice.seek
  split
  · simp
  · simp

theorem claim_C6_witness :
    ((QNonContiguousByteDeviceIoDeviceImpl.make ⟨"AB".toList, 1, false, false⟩).reset).1 = true ∧
    ((QNonContiguousByteDeviceIoDeviceImpl.make ⟨"AB".toList, 1, false, false⟩).reset).2.totalAdvancements = 0 := by
  have h := claim_C6 (QNonContiguousByteDeviceIoDeviceImpl.make ⟨"AB".toList, 1, false, false⟩)
  exact ⟨by decide, (h.2.1 (by decide)).2.1⟩

/-- Claim C10: when the streaming cursor's advanceReadPointer returns false
(the overshoot discard hit the end of the source), the state is not rolled
back: totalAdvancements keeps the full requested amount, the consumed
counter stays strictly above the filled counter, and eof is unchanged. -/
theorem claim_C10 (s : QNonContiguousByteDeviceIoDeviceImpl) (amount : Int)
    (hfail : (s.advanceReadPointer amount).ok = false) :
    (s.advanceReadPointer amount).st.totalAdvancements = s.totalAdvancements + amount ∧
    (s.advanceReadPointer amount).st.currentReadBufferAmount <
      (s.advanceReadPointer amount).st.currentReadBufferPosition ∧
    (s.advanceReadPointer amount).st.eof = s.eof := by
  revert hfail
  simp only [QNonContiguousByteDeviceIoDeviceImpl.advanceReadPointer]
  split
  · split
    · intro hfail
      simp at hfail
    · intro _
      refine ⟨rfl, ?_, rfl⟩
      assumption
  · intro hfail
    simp at hfail

theorem claim_C10_witness :
    ((QNonContiguousByteDeviceIoDeviceImpl.make ⟨[], 0, false, false⟩).advanceReadPointer 1).ok = false ∧
    ((QNonContiguousByteDeviceIoDeviceImpl.make ⟨[], 0, false, false⟩).advanceReadPointer 1).st.totalAdvancements =
      (QNonContiguousByteDeviceIoDeviceImpl.make ⟨[], 0, false, false⟩).totalAdvancements + 1 := by
  exact ⟨by decide, (claim_C10 (QNonContiguousByteDeviceIoDeviceImpl.make ⟨[], 0, false, false⟩) 1 (by decide)).1⟩

/-- Claim C9: the wrapping QIODevice adapter reports itself sequential
exactly when the wrapped cursor's size() is -1, every write fails with -1,
and each readData borrows a pointer via readPointer, copies len bytes into
the caller's buffer and advances the wrapped cursor by exactly that len,
returning -1 when readPointer signals len = -1 (shown end to end on the
byte-array cursor instance). -/
theorem claim_C9 :
    (∀ (σ : Type) (ops : QNonContiguousByteDeviceOps σ) (s : σ),
      QByteDeviceWrappingIoDevice.isSequential ops s = true ↔ ops.size s = -1) ∧
    (∀ (σ : Type) (ops : QNonContiguousByteDeviceOps σ) (s : σ) (data : List Char) (m : Int),
      QByteDeviceWrappingIoDevice.writeData ops s data m = -1) ∧
    (∀ (s : QNonContiguousByteDeviceByteArrayImpl) (m : Int), m ≠ -1 →
      (s.atEnd = true →
        QByteDeviceWrappingIoDevice.readData byteArrayOps s m = (-1, [], s)) ∧
      (s.atEnd = false →
        QByteDeviceWrappingIoDevice.readData byteArrayOps s m =
          (min m (s.size - s.currentPosition),
           (s.byteArray.drop s.currentPosition.toNat).take (min m (s.size - s.currentPosition)).toNat,
           { s with currentPosition := s.currentPosition + min m (s.size - s.currentPosition) }))) := by
  refine ⟨?_, ?_, ?_⟩
  · intro σ ops s
    simp [QByteDeviceWrappingIoDevice.isSequential]
  · intro σ ops s data m
    rfl
  · intro s m hm
    constructor
    · intro hend
      simp [QByteDeviceWrappingIoDevice.readData, byteArrayOps,
        QNonContiguousByteDeviceByteArrayImpl.readPointer, hend]
    · intro hend
      have hpos : s.currentPosition < s.size := by
        have := hend
        simp [QNonContiguousByteDeviceByteArrayImpl.atEnd, decide_eq_false_iff_not] at this
        linarith
      have hlen : min m (s.size - s.currentPosition) ≠ -1 := by
        rcases le_total m (s.size - s.currentPosition) with hle | hle
        · rw [min_eq_left hle]
          exact hm
        · rw [min_eq_right hle]
          intro hc
          rw [hc] at hle
          linarith
      simp [QByteDeviceWrappingIoDevice.readData, byteArrayOps,
        QNonContiguousByteDeviceByteArrayImpl.readPointer,
        QNonContiguousByteDeviceByteArrayImpl.advanceReadPointer, hend, hm, hlen]

theorem claim_C9_witness :
    (QNonContiguousByteDeviceByteArrayImpl.make ("AB".toList)).atEnd = false ∧
    QByteDeviceWrappingIoDevice.readData byteArrayOps
      (QNonContiguousByteDeviceByteArrayImpl.make ("AB".toList)) 1 =
      (1, "A".toList, ⟨"AB".toList, 1⟩) := by
  have h := (claim_C9.2.2 (QNonContiguousByteDeviceByteArrayImpl.make ("AB".toList)) 1
    (by decide)).2 (by decide)
  exact ⟨by decide, h.trans (by decide)⟩

theorem discardLoop_spec (n : Nat) : ∀ (d : QIODevice), d.readError = false →
    d.pos ≤ d.content.length →
    ((n ≤ d.content.length - d.pos →
      QNonContiguousByteDeviceIoDeviceImpl.discardLoop d n =
        (true, { d with pos := d.pos + n }, 0)) ∧
     (d.content.length - d.pos < n →
      QNonContiguousByteDeviceIoDeviceImpl.discardLoop d n =
        (false, { d with pos := d.content.length }, n - (d.content.length - d.pos)))) := by
  induction n with
  | zero =>
    intro d herr hpos
    refine ⟨fun _ => rfl, fun hcon => absurd hcon (by omega)⟩
  | succ k ih =>
    intro d herr hpos
    constructor
    · intro hle
      have hlt : ¬ (d.content.length ≤ d.pos) := by omega
      have hrec := (ih { d with pos := d.pos + 1 } herr (by simp; omega)).1 (by simp; omega)
      calc QNonContiguousByteDeviceIoDeviceImpl.discardLoop d (k + 1)
          = QNonContiguousByteDeviceIoDeviceImpl.discardLoop { d with pos := d.pos + 1 } k := by
            simp [QNonContiguousByteDeviceIoDeviceImpl.discardLoop, QIODevice.getChar, herr, hlt]
        _ = (true, { d with pos := d.pos + 1 + k }, 0) := hrec
        _ = (true, { d with pos := d.pos + (k + 1) }, 0) := by
              rw [Nat.add_assoc, Nat.add_comm 1 k]
    · intro hgt
      by_cases hlt : d.pos < d.content.length
      · have hlt2 : ¬ (d.content.length ≤ d.pos) := by omega
        have hrec := (ih { d with pos := d.pos + 1 } herr (by simp; omega)).2 (by simp; omega)
        calc QNonContiguousByteDeviceIoDeviceImpl.discardLoop d (k + 1)
            = QNonContiguousByteDeviceIoDeviceImpl.discardLoop { d with pos := d.pos + 1 } k := by
              simp [QNonContiguousByteDeviceIoDeviceImpl.discardLoop, QIODevice.getChar, herr, hlt2]
          _ = (false, { d with pos := d.content.length },
                k - (d.content.length - (d.pos + 1))) := hrec
          _ = (false, { d with pos := d.content.length },
                k + 1 - (d.content.length - d.pos)) := by
              congr 2
              omega
      · have hpe : d.content.length ≤ d.pos := by omega
        have hstep : QNonContiguousByteDeviceIoDeviceImpl.discardLoop d (k + 1) =
            (false, d, k + 1) := by
          simp [QNonContiguousByteDeviceIoDeviceImpl.discardLoop, QIODevice.getChar, herr, hpe]
        have hpe2 : d.pos = d.content.length := by omega
        have h3 : k + 1 - (d.content.length - d.pos) = k + 1 := by omega
        rw [hstep, h3, ← hpe2]

/-- Claim C2: streaming-cursor advanceReadPointer with an amount exceeding
the buffered bytes discards the excess by reading it directly from the
source; when the source ends before the discard completes, advance returns
false and the failure progress notification counts only the bytes actually
discarded; when the discard completes, advance returns true, afterwards the
chunk is fully drained and the device has consumed exactly the excess. -/
theorem claim_C2 (s : QNonContiguousByteDeviceIoDeviceImpl) (amount : Int)
    (hover : s.currentReadBufferAmount - s.currentReadBufferPosition < amount)
    (herr : s.device.readError = false)
    (hpos : s.device.pos ≤ s.device.content.length) :
    ((s.currentReadBufferPosition + amount - s.currentReadBufferAmount ≤
        (s.device.content.length : Int) - (s.device.pos : Int)) →
      (s.advanceReadPointer amount).ok = true ∧
      (s.advanceReadPointer amount).st.currentReadBufferPosition = 0 ∧
      (s.advanceReadPointer amount).st.currentReadBufferAmount = 0 ∧
      ((s.advanceReadPointer amount).st.device.pos : Int) =
        (s.device.pos : Int) +
          (s.currentReadBufferPosition + amount - s.currentReadBufferAmount)) ∧
    (((s.device.content.length : Int) - (s.device.pos : Int) <
        s.currentReadBufferPosition + amount - s.currentReadBufferAmount) →
      (s.advanceReadPointer amount).ok = false ∧
      (s.advanceReadPointer amount).st.device.pos = s.device.content.length ∧
      ∃ t1 t2 : Int,
        (s.advanceReadPointer amount).ems =
          [(s.totalAdvancements + amount, t1),
           (s.totalAdvancements + amount -
             (s.currentReadBufferPosition + amount - s.currentReadBufferAmount -
               ((s.device.content.length : Int) - (s.device.pos : Int))), t2)]) := by
  have hcond : s.currentReadBufferAmount < s.currentReadBufferPosition + amount := by
    linarith
  constructor
  · intro hA
    have hAn : (s.currentReadBufferPosition + amount - s.currentReadBufferAmount).toNat ≤
        s.device.content.length - s.device.pos := by omega
    have hd := (discardLoop_spec
      (s.currentReadBufferPosition + amount - s.currentReadBufferAmount).toNat
      s.device herr hpos).1 hAn
    simp only [QNonContiguousByteDeviceIoDeviceImpl.advanceReadPointer]
    rw [if_pos hcond, hd]
    refine ⟨rfl, rfl, rfl, ?_⟩
    push_cast
    omega
  · intro hB
    have hBn : s.device.content.length - s.device.pos <
        (s.currentReadBufferPosition + amount - s.currentReadBufferAmount).toNat := by omega
    have hd := (discardLoop_spec
      (s.currentReadBufferPosition + amount - s.currentReadBufferAmount).toNat
      s.device herr hpos).2 hBn
    have harith : (((s.currentReadBufferPosition + amount -
          s.currentReadBufferAmount).toNat -
          (s.device.content.length - s.device.pos) : Nat) : Int) =
        s.currentReadBufferPosition + amount - s.currentReadBufferAmount -
          ((s.device.content.length : Int) - (s.device.pos : Int)) := by
      omega
    simp only [QNonContiguousByteDeviceIoDeviceImpl.advanceReadPointer]
    rw [if_pos hcond, hd]
    refine ⟨rfl, rfl, ?_⟩
    split
    next x d snd heq =>
      simp at heq
    next x d rem heq =>
      simp only [Prod.mk.injEq, true_and] at heq
      obtain ⟨h1, h2⟩ := heq
      subst h1
      subst h2
      split
      · exact ⟨_, _, by rw [harith]⟩
      · exact ⟨_, _, by rw [harith]⟩

theorem claim_C2_witness :
    ((0 : Int) - 0 < 2 ∧ (2 : Int) ≤ (2 : Int) - 0) ∧
    ((QNonContiguousByteDeviceIoDeviceImpl.make ⟨"AB".toList, 0, false, false⟩).advanceReadPointer 2).ok = true ∧
    ((QNonContiguousByteDeviceIoDeviceImpl.make ⟨"AB".toList, 0, false, false⟩).advanceReadPointer 2).st.currentReadBufferPosition = 0 := by
  have h := (claim_C2 (QNonContiguousByteDeviceIoDeviceImpl.make ⟨"AB".toList, 0, false, false⟩)
    2 (by decide) (by decide) (by decide)).1 (by decide)
  exact ⟨⟨by decide, by decide⟩, h.1, h.2.1⟩

/-- Claim C5: when the streaming cursor is not already at eof, has no
buffered bytes, and the fresh pull yields nothing (read returns -1, or 0
with the device at end and not sequential), readPointer sets eof, returns
(null, -1), and emits a final progress notification with total = current =
totalAdvancements exactly when size() is -1. -/
theorem claim_C5 (s : QNonContiguousByteDeviceIoDeviceImpl) (maximumLength : Int)
    (h0 : s.eof = false)
    (hbuf : s.currentReadBufferAmount - s.currentReadBufferPosition ≤ 0)
    (hcond : (s.device.read (min (if maximumLength = -1 then s.currentReadBufferSize
        else maximumLength) s.currentReadBufferSize)).1 = -1 ∨
      ((s.device.read (min (if maximumLength = -1 then s.currentReadBufferSize
          else maximumLength) s.currentReadBufferSize)).1 = 0 ∧
        (s.device.read (min (if maximumLength = -1 then s.currentReadBufferSize
          else maximumLength) s.currentReadBufferSize)).2.2.atEnd = true ∧
        ¬ (s.device.read (min (if maximumLength = -1 then s.currentReadBufferSize
          else maximumLength) s.currentReadBufferSize)).2.2.isSequential = true)) :
    (s.readPointer maximumLength).ptr = none ∧
    (s.readPointer maximumLength).len = -1 ∧
    (s.readPointer maximumLength).st.eof = true ∧
    ((s.readPointer maximumLength).ems =
        [(s.totalAdvancements, s.totalAdvancements)] ↔
      QNonContiguousByteDeviceIoDeviceImpl.size (s.readPointer maximumLength).st = -1) ∧
    (QNonContiguousByteDeviceIoDeviceImpl.size (s.readPointer maximumLength).st ≠ -1 →
      (s.readPointer maximumLength).ems = []) := by
  have hnb : ¬ (0 < s.currentReadBufferAmount - s.currentReadBufferPosition) := by omega
  simp only [QNonContiguousByteDeviceIoDeviceImpl.readPointer, h0, Bool.false_eq_true,
    if_false]
  rw [if_neg hnb, if_pos hcond]
  refine ⟨rfl, rfl, rfl, ?_, ?_⟩
  · constructor
    · intro hems
      by_contra hsz
      rw [if_neg hsz] at hems
      exact absurd hems (by simp)
    · intro hsz
      rw [if_pos hsz]
  · intro hsz
    rw [if_neg hsz]

theorem claim_C5_witness :
    ({ QNonContiguousByteDeviceIoDeviceImpl.make ⟨"AB".toList, 0, true, true⟩ with
        currentReadBufferSize := 4 }).eof = false ∧
    (({ QNonContiguousByteDeviceIoDeviceImpl.make ⟨"AB".toList, 0, true, true⟩ with
        currentReadBufferSize := 4 }).readPointer (-1)).ems = [(0, 0)] ∧
    (({ QNonContiguousByteDeviceIoDeviceImpl.make ⟨"AB".toList, 0, true, true⟩ with
        currentReadBufferSize := 4 }).readPointer (-1)).st.eof = true := by
  have h := claim_C5 ({ QNonContiguousByteDeviceIoDeviceImpl.make ⟨"AB".toList, 0, true, true⟩ with
    currentReadBufferSize := 4 }) (-1) (by decide) (by decide) (by decide)
  exact ⟨by decide, h.2.2.2.1.mpr (by decide), h.2.2.1⟩

/-- The end-to-end scenario source: "HELLOWORLD" behind a non-sequential,
error-free device at position 0. -/
def helloDevice : QIODevice := ⟨"HELLOWORLD".toList, 0, false, false⟩

/-- The streaming cursor of the end-to-end scenario, chunk capacity 4. -/
def helloCursor : QNonContiguousByteDeviceIoDeviceImpl :=
  { QNonContiguousByteDeviceIoDeviceImpl.make helloDevice with currentReadBufferSize := 4 }

def helloR1 := helloCursor.readPointer (-1)
def helloA1 := helloR1.st.advanceReadPointer 4
def helloR2 := helloA1.st.readPointer (-1)
def helloA2 := helloR2.st.advanceReadPointer 2
def helloR3 := helloA2.st.readPointer (-1)
def helloA3 := helloR3.st.advanceReadPointer 2
def helloR4 := helloA3.st.readPointer (-1)
def helloA4 := helloR4.st.advanceReadPointer 2
def helloR5 := helloA4.st.readPointer (-1)
def helloReset := helloR5.st.reset
def helloS1 := helloReset.2.readPointer (-1)
def helloS2 := (helloS1.st.advanceReadPointer 4).st.readPointer (-1)
def helloS3 := (helloS2.st.advanceReadPointer 4).st.readPointer (-1)
def helloS4 := (helloS3.st.advanceReadPointer 2).st.readPointer (-1)

/-- Claim C1 (code behaviour at the failing input): with 4 bytes freshly
buffered and none consumed, readPointer(maxLen = 3) on the streaming cursor
returns the full unconsumed buffered length len = 4 without clipping it to
maxLen = 3; the pointer is served from the chunk at the consumed offset and
the device is untouched, but len > maxLen, contradicting both the claim and
the readPointer contract of returning at most maximumLength bytes. -/
theorem claim_C1_code_behavior :
    (helloR1.st.readPointer 3).len = 4 ∧
    ¬ ((helloR1.st.readPointer 3).len ≤ 3) ∧
    (helloR1.st.readPointer 3).ptr = some ("HELL".toList) ∧
    (helloR1.st.readPointer 3).st.device = helloR1.st.device := by decide

/-- Claim C3 (counterexample): after readPointer(-1) = "HELL", advance(4),
readPointer(-1) = "OWOR" and advance(2), the next readPointer(-1) serves
the 2 remaining buffered bytes "OR", not "LD" as the claim states. -/
theorem claim_C3_counterexample :
    helloR3.len = 2 ∧ viewOf helloR3 = "OR".toList ∧ viewOf helloR3 ≠ "LD".toList := by
  decide

/-- Claim C3 (amended): content "HELLOWORLD" through the streaming cursor
with chunk capacity 4: readPointer(-1) yields len 4 "HELL"; advance(4);
readPointer(-1) yields len 4 "OWOR"; after advance(2) readPointer(-1)
yields the remaining 2 buffered bytes "OR"; continuing the loop the fresh
read yields "LD", then atEnd() becomes true; reset() returns true and the
subsequent full read/advance loop reproduces "HELLOWORLD". -/
theorem claim_C3_amended :
    helloR1.len = 4 ∧ viewOf helloR1 = "HELL".toList ∧
    helloA1.ok = true ∧
    helloR2.len = 4 ∧ viewOf helloR2 = "OWOR".toList ∧
    helloA2.ok = true ∧
    helloR3.len = 2 ∧ viewOf helloR3 = "OR".toList ∧
    helloR4.len = 2 ∧ viewOf helloR4 = "LD".toList ∧
    helloR5.len = -1 ∧ helloR5.st.atEnd = true ∧
    helloReset.1 = true ∧
    viewOf helloS1 ++ viewOf helloS2 ++ viewOf helloS3 = "HELLOWORLD".toList ∧
    helloS4.len = -1 ∧ helloS4.st.atEnd = true := by
  decide

/-- Claim C4 (counterexample): on a byte-array cursor over 10 bytes (size
10, known, not -1), the single-advance sequence advance(20) emits a
readProgress notification whose current = 20 exceeds size() = 10. -/
theorem claim_C4_counterexample :
    ((QNonContiguousByteDeviceByteArrayImpl.make ("HELLOWORLD".toList)).advanceReadPointer 20).ems
      = [(20, 10)] ∧
    QNonContiguousByteDeviceByteArrayImpl.size
      (QNonContiguousByteDeviceByteArrayImpl.make ("HELLOWORLD".toList)) = 10 ∧
    ¬ ((20 : Int) ≤ 10) := by
  decide

/-- Claim C4 (amended): for each cursor variant (byte-array, to which the
buffer cursor delegates, ring-buffer, and streaming), over every sequence
of readPointer/advance operations between two resets in which each advance
amount is nonnegative and every advance returns true, the current values of
successive readProgress notifications form a non-decreasing sequence; the
original bound current ≤ size() does not hold in general. -/
theorem claim_C4_amended :
    (∀ (s : QNonContiguousByteDeviceByteArrayImpl) (ops : List CursorOp),
      (∀ op ∈ ops, op.nonneg) → (runOps byteArrayStep s ops).2.2 = true →
      List.Chain' (fun x y => x ≤ y) (runOps byteArrayStep s ops).2.1) ∧
    (∀ (s : QNonContiguousByteDeviceRingBufferImpl) (ops : List CursorOp),
      (∀ op ∈ ops, op.nonneg) → (runOps ringBufferStep s ops).2.2 = true →
      List.Chain' (fun x y => x ≤ y) (runOps ringBufferStep s ops).2.1) ∧
    (∀ (s : QNonContiguousByteDeviceIoDeviceImpl) (ops : List CursorOp),
      (∀ op ∈ ops, op.nonneg) → (runOps ioDeviceStep s ops).2.2 = true →
      List.Chain' (fun x y => x ≤ y) (runOps ioDeviceStep s ops).2.1) := by
  refine ⟨?_, ?_, ?_⟩
  · intro s ops hn hok
    exact ((runOps_nonDecFrom byteArrayStep (fun t => t.currentPosition)
      byteArrayStep_nonDec ops s hn hok).1).chain
  · intro s ops hn hok
    exact ((runOps_nonDecFrom ringBufferStep (fun t => t.currentPosition)
      ringBufferStep_nonDec ops s hn hok).1).chain
  · intro s ops hn hok
    exact ((runOps_nonDecFrom ioDeviceStep (fun t => t.totalAdvancements)
      ioDeviceStep_nonDec ops s hn hok).1).chain

theorem claim_C4_witness :
    (∀ op ∈ [CursorOp.rp (-1), CursorOp.adv 4, CursorOp.rp (-1), CursorOp.adv 2],
      op.nonneg) ∧
    (runOps ioDeviceStep helloCursor
      [CursorOp.rp (-1), CursorOp.adv 4, CursorOp.rp (-1), CursorOp.adv 2]).2.2 = true ∧
    List.Chain' (fun x y => x ≤ y) (runOps ioDeviceStep helloCursor
      [CursorOp.rp (-1), CursorOp.adv 4, CursorOp.rp (-1), CursorOp.adv 2]).2.1 :=
  ⟨by decide, by decide, claim_C4_amended.2.2 helloCursor
    [CursorOp.rp (-1), CursorOp.adv 4, CursorOp.rp (-1), CursorOp.adv 2]
    (by decide) (by decide)⟩

/-- One byte-array cursor call in a sequence from construction: readPointer,
advanceReadPointer, atEnd or reset. -/
inductive ByteArrayOp where
  | rp (maxLen : Int)
  | adv (amount : Int)
  | ae
  | rst
deriving DecidableEq

/-- The state after one byte-array cursor call (readPointer and atEnd do
not mutate; advance adds; reset zeroes). -/
def byteArrayOpStep (s : QNonContiguousByteDeviceByteArrayImpl) :
    ByteArrayOp → QNonContiguousByteDeviceByteArrayImpl
  | .rp m => (s.readPointer m).st
  | .adv a => (s.advanceReadPointer a).st
  | .ae => s
  | .rst => (s.reset).2

def runByteArrayOps : QNonContiguousByteDeviceByteArrayImpl → List ByteArrayOp →
    QNonContiguousByteDeviceByteArrayImpl
  | s, [] => s
  | s, op :: rest => runByteArrayOps (byteArrayOpStep s op) rest

/-- Caller-disciplined sequences: every advance amount is nonnegative and at
most the bytes remaining (which holds in particular for any amount bounded
by the len of a preceding readPointer, since that len is clipped to the
remainder). -/
def okSeq (s : QNonContiguousByteDeviceByteArrayImpl) : List ByteArrayOp → Bool
  | [] => true
  | op :: rest =>
    (match op with
     | .adv a => decide (0 ≤ a ∧
         a ≤ QNonContiguousByteDeviceByteArrayImpl.size s - s.currentPosition)
     | _ => true) && okSeq (byteArrayOpStep s op) rest

/-- A sequence with no reset call. -/
def noReset (ops : List ByteArrayOp) : Bool :=
  ops.all (fun op => decide (op ≠ ByteArrayOp.rst))

theorem byteArrayOpStep_byteArray (s : QNonContiguousByteDeviceByteArrayImpl)
    (op : ByteArrayOp) : (byteArrayOpStep s op).byteArray = s.byteArray := by
  cases op with
  | rp m =>
    simp only [byteArrayOpStep, QNonContiguousByteDeviceByteArrayImpl.readPointer]
    split <;> rfl
  | adv a => rfl
  | ae => rfl
  | rst => rfl

theorem runByteArrayOps_append (l1 l2 : List ByteArrayOp) :
    ∀ s, runByteArrayOps s (l1 ++ l2) = runByteArrayOps (runByteArrayOps s l1) l2 := by
  induction l1 with
  | nil => intro s; rfl
  | cons op rest ih => intro s; exact ih (byteArrayOpStep s op)

theorem okSeq_append (l1 l2 : List ByteArrayOp) :
    ∀ s, okSeq s (l1 ++ l2) = true → okSeq (runByteArrayOps s l1) l2 = true := by
  induction l1 with
  | nil => intro s h; exact h
  | cons op rest ih =>
    intro s h
    simp only [List.cons_append, okSeq, Bool.and_eq_true] at h
    exact ih (byteArrayOpStep s op) h.2

theorem runBA_inv : ∀ (ops : List ByteArrayOp) (s : QNonContiguousByteDeviceByteArrayImpl),
    0 ≤ s.currentPosition →
    s.currentPosition ≤ QNonContiguousByteDeviceByteArrayImpl.size s →
    okSeq s ops = true →
    0 ≤ (runByteArrayOps s ops).currentPosition ∧
    (runByteArrayOps s ops).currentPosition ≤
      QNonContiguousByteDeviceByteArrayImpl.size (runByteArrayOps s ops) := by
  intro ops
  induction ops with
  | nil => intro s h0 h1 _; exact ⟨h0, h1⟩
  | cons op rest ih =>
    intro s h0 h1 hok
    simp only [okSeq, Bool.and_eq_true] at hok
    cases op with
    | rp m =>
      refine ih _ ?_ ?_ hok.2
      · have he : ((s.readPointer m).st).currentPosition = s.currentPosition := by
          simp only [QNonContiguousByteDeviceByteArrayImpl.readPointer]
          split <;> rfl
        rw [show byteArrayOpStep s (ByteArrayOp.rp m) = (s.readPointer m).st from rfl, he]
        exact h0
      · have he : (s.readPointer m).st = s := by
          simp only [QNonContiguousByteDeviceByteArrayImpl.readPointer]
          split <;> rfl
        rw [show byteArrayOpStep s (ByteArrayOp.rp m) = (s.readPointer m).st from rfl, he]
        exact h1
    | adv a =>
      have hc := of_decide_eq_true hok.1
      refine ih _ ?_ ?_ hok.2
      · show 0 ≤ s.currentPosition + a
        linarith [hc.1]
      · show s.currentPosition + a ≤ QNonContiguousByteDeviceByteArrayImpl.size _
        have hsz : QNonContiguousByteDeviceByteArrayImpl.size
            (byteArrayOpStep s (ByteArrayOp.adv a)) =
            QNonContiguousByteDeviceByteArrayImpl.size s := rfl
        rw [hsz]
        linarith [hc.2]
    | ae => exact ih _ h0 h1 hok.2
    | rst =>
      refine ih _ le_rfl ?_ hok.2
      show (0 : Int) ≤ QNonContiguousByteDeviceByteArrayImpl.size _
      simp [QNonContiguousByteDeviceByteArrayImpl.size]

theorem runBA_mono : ∀ (ops : List ByteArrayOp) (s : QNonContiguousByteDeviceByteArrayImpl),
    okSeq s ops = true → noReset ops = true →
    s.currentPosition ≤ (runByteArrayOps s ops).currentPosition := by
  intro ops
  induction ops with
  | nil => intro s _ _; exact le_rfl
  | cons op rest ih =>
    intro s hok hnr
    simp only [okSeq, Bool.and_eq_true] at hok
    simp only [noReset, List.all_cons, Bool.and_eq_true] at hnr
    have hstep : s.currentPosition ≤ (byteArrayOpStep s op).currentPosition := by
      cases op with
      | rp m =>
        have he : (s.readPointer m).st = s := by
          simp only [QNonContiguousByteDeviceByteArrayImpl.readPointer]
          split <;> rfl
        rw [show byteArrayOpStep s (ByteArrayOp.rp m) = (s.readPointer m).st from rfl, he]
      | adv a =>
        have hc := of_decide_eq_true hok.1
        show s.currentPosition ≤ s.currentPosition + a
        linarith [hc.1]
      | ae => exact le_rfl
      | rst => exact absurd rfl (of_decide_eq_true hnr.1)
    exact le_trans hstep (ih _ hok.2 hnr.2)

/-- Claim C7 (counterexample): the invariant 0 ≤ position ≤ size does not
hold under every call sequence: on a byte-array cursor over 10 bytes, the
single call advance(20) reaches position = 20 > size = 10. -/
theorem claim_C7_counterexample :
    ((QNonContiguousByteDeviceByteArrayImpl.make
      ("HELLOWORLD".toList)).advanceReadPointer 20).st.currentPosition = 20 ∧
    QNonContiguousByteDeviceByteArrayImpl.size
      ((QNonContiguousByteDeviceByteArrayImpl.make
        ("HELLOWORLD".toList)).advanceReadPointer 20).st = 10 ∧
    ¬ ((20 : Int) ≤ 10) := by
  decide

/-- Claim C7 (amended): for the byte-array cursor, in every sequence of
readPointer, advance, atEnd and reset calls from construction in which
each advance amount is nonnegative and at most the remaining size -
position (as any amount bounded by the preceding readPointer len is, since
that len is clipped to the remainder), the invariant 0 ≤ position ≤ size
holds in every reachable state, and in reset-free sequences the position is
monotonically non-decreasing (each intermediate position bounds the final one). -/
theorem claim_C7_amended (ba : List Char) (ops : List ByteArrayOp)
    (hok : okSeq (QNonContiguousByteDeviceByteArrayImpl.make ba) ops = true) :
    (0 ≤ (runByteArrayOps (QNonContiguousByteDeviceByteArrayImpl.make ba) ops).currentPosition ∧
      (runByteArrayOps (QNonContiguousByteDeviceByteArrayImpl.make ba) ops).currentPosition ≤
        QNonContiguousByteDeviceByteArrayImpl.size
          (runByteArrayOps (QNonContiguousByteDeviceByteArrayImpl.make ba) ops)) ∧
    (noReset ops = true → ∀ (pre suf : List ByteArrayOp), pre ++ suf = ops →
      (runByteArrayOps (QNonContiguousByteDeviceByteArrayImpl.make ba) pre).currentPosition ≤
        (runByteArrayOps (QNonContiguousByteDeviceByteArrayImpl.make ba) ops).currentPosition) := by
  constructor
  · refine runBA_inv ops _ le_rfl ?_ hok
    show (0 : Int) ≤ QNonContiguousByteDeviceByteArrayImpl.size _
    simp [QNonContiguousByteDeviceByteArrayImpl.size]
  · intro hnr pre suf hps
    subst hps
    rw [runByteArrayOps_append]
    refine runBA_mono suf _ (okSeq_append pre suf _ hok) ?_
    simp only [noReset, List.all_append, Bool.and_eq_true] at hnr
    exact hnr.2

theorem claim_C7_witness :
    okSeq (QNonContiguousByteDeviceByteArrayImpl.make ("AB".toList))
      [ByteArrayOp.rp (-1), ByteArrayOp.adv 1, ByteArrayOp.ae, ByteArrayOp.adv 1,
       ByteArrayOp.rst, ByteArrayOp.rp (-1)] = true ∧
    0 ≤ (runByteArrayOps (QNonContiguousByteDeviceByteArrayImpl.make ("AB".toList))
      [ByteArrayOp.rp (-1), ByteArrayOp.adv 1, ByteArrayOp.ae, ByteArrayOp.adv 1,
       ByteArrayOp.rst, ByteArrayOp.rp (-1)]).currentPosition ∧
    (runByteArrayOps (QNonContiguousByteDeviceByteArrayImpl.make ("AB".toList))
      [ByteArrayOp.rp (-1), ByteArrayOp.adv 1, ByteArrayOp.ae, ByteArrayOp.adv 1,
       ByteArrayOp.rst, ByteArrayOp.rp (-1)]).currentPosition ≤
      QNonContiguousByteDeviceByteArrayImpl.size
        (runByteArrayOps (QNonContiguousByteDeviceByteArrayImpl.make ("AB".toList))
          [ByteArrayOp.rp (-1), ByteArrayOp.adv 1, ByteArrayOp.ae, ByteArrayOp.adv 1,
           ByteArrayOp.rst, ByteArrayOp.rp (-1)]) := by
  refine ⟨by decide, ?_, ?_⟩
  · exact (claim_C7_amended ("AB".toList)
      [ByteArrayOp.rp (-1), ByteArrayOp.adv 1, ByteArrayOp.ae, ByteArrayOp.adv 1,
       ByteArrayOp.rst, ByteArrayOp.rp (-1)] (by decide)).1.1
  · exact (claim_C7_amended ("AB".toList)
      [ByteArrayOp.rp (-1), ByteArrayOp.adv 1, ByteArrayOp.ae, ByteArrayOp.adv 1,
       ByteArrayOp.rst, ByteArrayOp.rp (-1)] (by decide)).1.2
